import Mathlib

/-!
Verification of the routing-decision engine of the garnet RoutingUnit
(src/mem/ruby/network/garnet/RoutingUnit.cc).  The C++ code is embedded
shallowly: machine ints become Int (C++ / and % are Int.tdiv and Int.tmod),
std::vector becomes List, NetDest becomes a list of endpoint ids, the
PortDirection strings stay strings, and every fatal / panic / assert /
out-of-bounds outcome becomes an error value of an Except.
-/

namespace Garnet

/-- A NetDest destination set: the bit-set of eligible consuming endpoints,
embedded as the list of endpoint ids whose bit is set. -/
abbrev NetDest := List Nat

/-- NetDest.intersectionIsNotEmpty: the two destination sets share a member. -/
def intersectionIsNotEmpty (a b : NetDest) : Bool :=
  a.any (fun x => b.contains x)

/-- Abnormal outcomes of the routing code: a fatal(...) abort, a panic(...),
an assert failure, and an out-of-bounds container access. -/
inductive RErr where
  | fatal : String → RErr
  | panicked : String → RErr
  | assertFail : RErr
  | oob : RErr
deriving DecidableEq

/-- Modelled from the spec: the sentinel used to initialise the minimum
weight in the routing-table scan.  The constant comes from the repository
header CommonTypes.hh, which is not among the provided sources; gem5
defines INFINITE_ as 10000. -/
def INFINITE_ : Int := 10000

/-- The first loop of RoutingUnit::lookupRoutingTable: walk the candidate
links of the traffic class (with their absolute link index), and whenever
the query destination intersects the link's destination set, lower the
running minimum weight to that link's weight.  Reading the weight table out
of bounds is the out-of-bounds error outcome. -/
def minWeightAux (dest : NetDest) (weights : List Int) :
    List NetDest → Nat → Int → Except RErr Int
  | [], _, mw => Except.ok mw
  | nd :: rest, i, mw =>
    if intersectionIsNotEmpty dest nd then
      match weights[i]? with
      | none => Except.error RErr.oob
      | some w => minWeightAux dest weights rest (i + 1) (if w ≤ mw then w else mw)
    else minWeightAux dest weights rest (i + 1) mw

/-- Total (error-free) counterpart of minWeightAux, used only in statements
and proofs: weight reads use getD. -/
def minWeightSpec (dest : NetDest) (weights : List Int) :
    List NetDest → Nat → Int → Int
  | [], _, mw => mw
  | nd :: rest, i, mw =>
    if intersectionIsNotEmpty dest nd then
      minWeightSpec dest weights rest (i + 1)
        (if weights.getD i 0 ≤ mw then weights.getD i 0 else mw)
    else minWeightSpec dest weights rest (i + 1) mw

/-- The second loop of RoutingUnit::lookupRoutingTable: collect, in
ascending link order, every intersecting candidate link whose weight equals
the minimum weight found by the first loop. -/
def candAux (dest : NetDest) (weights : List Int) (mwv : Int) :
    List NetDest → Nat → List Nat → Except RErr (List Nat)
  | [], _, acc => Except.ok acc
  | nd :: rest, i, acc =>
    if intersectionIsNotEmpty dest nd then
      match weights[i]? with
      | none => Except.error RErr.oob
      | some w => candAux dest weights mwv rest (i + 1) (if w = mwv then acc ++ [i] else acc)
    else candAux dest weights mwv rest (i + 1) acc

/-- Total counterpart of candAux, used in statements and proofs. -/
def candSpec (dest : NetDest) (weights : List Int) (mwv : Int) :
    List NetDest → Nat → List Nat
  | [], _ => []
  | nd :: rest, i =>
    (if intersectionIsNotEmpty dest nd ∧ weights.getD i 0 = mwv then [i] else []) ++
      candSpec dest weights mwv rest (i + 1)

/-- Per-router routing state: the per-class candidate-link table
m_routing_table, the parallel weight table m_weight_table, and the
out-direction map m_outports_dirn2idx (an association list; std::map keys
are unique, lookup takes the first match). -/
structure RoutingState where
  routing : List (List NetDest)
  weight : List Int
  outports : List (String × Int)

/-- RoutingUnit::lookupRoutingTable.  The ordered flag stands for
isVNetOrdered(vnet) and randVal for the rand() draw used for the unordered
tie-break.  Returns the chosen output link index, the fatal no-route abort,
or an out-of-bounds error where the C++ indexing would be out of range. -/
def lookupRoutingTable (st : RoutingState) (ordered : Bool) (randVal : Nat)
    (vnet : Nat) (dest : NetDest) : Except RErr Int :=
  match st.routing[vnet]? with
  | none => Except.error RErr.oob
  | some links =>
    match minWeightAux dest st.weight links 0 INFINITE_ with
    | Except.error e => Except.error e
    | Except.ok mw =>
      match candAux dest st.weight mw links 0 [] with
      | Except.error e => Except.error e
      | Except.ok cands =>
        if cands.length = 0 then
          Except.error (RErr.fatal "No Route exists from this Router.")
        else
          let candidate := if ordered then 0 else randVal % cands.length
          match cands[candidate]? with
          | none => Except.error RErr.oob
          | some l => Except.ok (l : Int)

/-- Candidate-link predicate at absolute link index j of a class's link
list: the index is in range and the query destination intersects that
link's destination set. -/
def isCand (links : List NetDest) (dest : NetDest) (j : Nat) : Prop :=
  j < links.length ∧ intersectionIsNotEmpty dest (links.getD j []) = true

instance (links : List NetDest) (dest : NetDest) (j : Nat) :
    Decidable (isCand links dest j) := by
  unfold isCand; infer_instance

theorem minWeightAux_ok (dest : NetDest) (weights : List Int) (links : List NetDest) :
    ∀ (i : Nat) (mw : Int), i + links.length ≤ weights.length →
      minWeightAux dest weights links i mw =
        Except.ok (minWeightSpec dest weights links i mw) := by
  induction links with
  | nil => intro i mw _; rfl
  | cons nd rest ih =>
    intro i mw h
    have hi : i < weights.length := by simp [List.length_cons] at h; omega
    have hw : weights[i]? = some (weights.getD i 0) := by
      simp [List.getElem?_eq_getElem hi]
    unfold minWeightAux minWeightSpec
    by_cases hc : intersectionIsNotEmpty dest nd
    · rw [if_pos hc, if_pos hc, hw]
      exact ih (i + 1) _ (by simp [List.length_cons] at h ⊢; omega)
    · rw [if_neg hc, if_neg hc]
      exact ih (i + 1) mw (by simp [List.length_cons] at h ⊢; omega)

theorem candAux_ok (dest : NetDest) (weights : List Int) (mwv : Int) (links : List NetDest) :
    ∀ (i : Nat) (acc : List Nat), i + links.length ≤ weights.length →
      candAux dest weights mwv links i acc =
        Except.ok (acc ++ candSpec dest weights mwv links i) := by
  induction links with
  | nil => intro i acc _; simp [candAux, candSpec]
  | cons nd rest ih =>
    intro i acc h
    have hi : i < weights.length := by simp [List.length_cons] at h; omega
    have hw : weights[i]? = some (weights.getD i 0) := by
      simp [List.getElem?_eq_getElem hi]
    have hrest : (i + 1) + rest.length ≤ weights.length := by
      simp [List.length_cons] at h; omega
    unfold candAux candSpec
    by_cases hc : intersectionIsNotEmpty dest nd
    · rw [if_pos hc, hw]
      dsimp only
      by_cases hm : weights.getD i 0 = mwv
      · rw [if_pos hm, if_pos ⟨hc, hm⟩, ih (i + 1) (acc ++ [i]) hrest, List.append_assoc]
      · rw [if_neg hm, if_neg (fun hcon => hm hcon.2), ih (i + 1) acc hrest,
          List.nil_append]
    · rw [if_neg hc, if_neg (fun hcon => hc hcon.1), ih (i + 1) acc hrest,
        List.nil_append]

theorem minWeightSpec_le (dest : NetDest) (weights : List Int) (links : List NetDest) :
    ∀ (i : Nat) (mw : Int), minWeightSpec dest weights links i mw ≤ mw := by
  induction links with
  | nil => intro i mw; exact le_refl mw
  | cons nd rest ih =>
    intro i mw
    unfold minWeightSpec
    by_cases hc : intersectionIsNotEmpty dest nd
    · rw [if_pos hc]
      refine le_trans (ih (i + 1) _) ?_
      split <;> omega
    · rw [if_neg hc]; exact ih (i + 1) mw

theorem minWeightSpec_le_cand (dest : NetDest) (weights : List Int) (links : List NetDest) :
    ∀ (i : Nat) (mw : Int) (k : Nat), k < links.length →
      intersectionIsNotEmpty dest (links.getD k []) = true →
      minWeightSpec dest weights links i mw ≤ weights.getD (i + k) 0 := by
  induction links with
  | nil => intro i mw k hk _; simp at hk
  | cons nd rest ih =>
    intro i mw k hk hint
    match k with
    | 0 =>
      simp only [List.getD_cons_zero] at hint
      unfold minWeightSpec
      rw [if_pos hint]
      refine le_trans (minWeightSpec_le dest weights rest (i + 1) _) ?_
      simp only [Nat.add_zero]
      split <;> omega
    | k + 1 =>
      simp only [List.getD_cons_succ] at hint
      have hk' : k < rest.length := by simp [List.length_cons] at hk; omega
      unfold minWeightSpec
      have heq : i + (k + 1) = (i + 1) + k := by omega
      by_cases hc : intersectionIsNotEmpty dest nd
      · rw [if_pos hc, heq]; exact ih (i + 1) _ k hk' hint
      · rw [if_neg hc, heq]; exact ih (i + 1) mw k hk' hint

theorem minWeightSpec_attained (dest : NetDest) (weights : List Int) (links : List NetDest) :
    ∀ (i : Nat) (mw : Int),
      minWeightSpec dest weights links i mw = mw ∨
      ∃ k, k < links.length ∧ intersectionIsNotEmpty dest (links.getD k []) = true ∧
        minWeightSpec dest weights links i mw = weights.getD (i + k) 0 := by
  induction links with
  | nil => intro i mw; left; rfl
  | cons nd rest ih =>
    intro i mw
    unfold minWeightSpec
    by_cases hc : intersectionIsNotEmpty dest nd
    · rw [if_pos hc]
      rcases ih (i + 1) (if weights.getD i 0 ≤ mw then weights.getD i 0 else mw) with h | ⟨k, hk, hki, hkv⟩
      · by_cases hw : weights.getD i 0 ≤ mw
        · right
          exact ⟨0, by simp [List.length_cons], by simpa using hc,
            by rw [h, if_pos hw]; simp⟩
        · left; rw [h, if_neg hw]
      · right
        exact ⟨k + 1, by simp [List.length_cons]; omega, by simpa using hki,
          by rw [hkv]; congr 1; omega⟩
    · rw [if_neg hc]
      rcases ih (i + 1) mw with h | ⟨k, hk, hki, hkv⟩
      · left; exact h
      · right
        exact ⟨k + 1, by simp [List.length_cons]; omega, by simpa using hki,
          by rw [hkv]; congr 1; omega⟩

theorem candSpec_mem (dest : NetDest) (weights : List Int) (mwv : Int) (links : List NetDest) :
    ∀ (i : Nat) (j : Nat),
      j ∈ candSpec dest weights mwv links i ↔
      ∃ k, k < links.length ∧ j = i + k ∧
        intersectionIsNotEmpty dest (links.getD k []) = true ∧
        weights.getD j 0 = mwv := by
  induction links with
  | nil => intro i j; simp [candSpec]
  | cons nd rest ih =>
    intro i j
    unfold candSpec
    rw [List.mem_append, ih (i + 1) j]
    constructor
    · rintro (hb | ⟨k, hk, hj, hki, hkv⟩)
      · have : intersectionIsNotEmpty dest nd ∧ weights.getD i 0 = mwv ∧ j = i := by
          by_cases hcond : intersectionIsNotEmpty dest nd ∧ weights.getD i 0 = mwv
          · rw [if_pos hcond] at hb
            simp at hb
            exact ⟨hcond.1, hcond.2, hb⟩
          · rw [if_neg hcond] at hb; simp at hb
        exact ⟨0, by simp [List.length_cons], by omega, by simpa using this.1,
          by rw [this.2.2]; exact this.2.1⟩
      · exact ⟨k + 1, by simp [List.length_cons]; omega, by omega, by simpa using hki, hkv⟩
    · rintro ⟨k, hk, hj, hki, hkv⟩
      match k with
      | 0 =>
        left
        simp only [List.getD_cons_zero] at hki
        have hji : j = i := by omega
        rw [if_pos ⟨hki, by rw [← hji]; exact hkv⟩]
        simp [hji]
      | k + 1 =>
        right
        simp only [List.getD_cons_succ] at hki
        exact ⟨k, by simp [List.length_cons] at hk; omega, by omega, hki, hkv⟩

theorem candSpec_pairwise (dest : NetDest) (weights : List Int) (mwv : Int) (links : List NetDest) :
    ∀ (i : Nat), (candSpec dest weights mwv links i).Pairwise (· < ·) := by
  induction links with
  | nil => intro i; simp [candSpec]
  | cons nd rest ih =>
    intro i
    unfold candSpec
    rw [List.pairwise_append]
    refine ⟨?_, ih (i + 1), ?_⟩
    · split <;> simp
    · intro a ha b hb
      have hbi : i + 1 ≤ b := by
        rcases (candSpec_mem dest weights mwv rest (i + 1) b).mp hb with ⟨k, _, hb', _, _⟩
        omega
      have hai : a = i := by
        by_cases hcond : intersectionIsNotEmpty dest nd ∧ weights.getD i 0 = mwv
        · rw [if_pos hcond] at ha; simpa using ha
        · rw [if_neg hcond] at ha; simp at ha
      omega


/-- The candidate-link list of a traffic class in the routing table. -/
def classLinks (st : RoutingState) (vnet : Nat) : List NetDest :=
  st.routing.getD vnet []

/-- The minimum weight the first loop of lookupRoutingTable computes for a
query: the INFINITE_-capped minimum over intersecting candidates. -/
def classMinWeight (st : RoutingState) (vnet : Nat) (dest : NetDest) : Int :=
  minWeightSpec dest st.weight (classLinks st vnet) 0 INFINITE_

/-- The candidate list the second loop of lookupRoutingTable collects:
intersecting links of minimum weight, in ascending link order. -/
def classCands (st : RoutingState) (vnet : Nat) (dest : NetDest) : List Nat :=
  candSpec dest st.weight (classMinWeight st vnet dest) (classLinks st vnet) 0

/-- Error-free restatement of the body of lookupRoutingTable, used as a
bridge in proofs: valid inputs make the two loops total. -/
def lookupPure (st : RoutingState) (ordered : Bool) (randVal : Nat)
    (vnet : Nat) (dest : NetDest) : Except RErr Int :=
  if (classCands st vnet dest).length = 0 then
    Except.error (RErr.fatal "No Route exists from this Router.")
  else
    match (classCands st vnet dest)[(if ordered then 0
        else randVal % (classCands st vnet dest).length)]? with
    | none => Except.error RErr.oob
    | some l => Except.ok (l : Int)

theorem lookupRoutingTable_eq_pure (st : RoutingState) (ordered : Bool) (randVal : Nat)
    (vnet : Nat) (dest : NetDest)
    (h1 : vnet < st.routing.length)
    (h2 : (classLinks st vnet).length ≤ st.weight.length) :
    lookupRoutingTable st ordered randVal vnet dest =
      lookupPure st ordered randVal vnet dest := by
  have hl : st.routing[vnet]? = some (classLinks st vnet) := by
    simp [classLinks, List.getElem?_eq_getElem h1]
  unfold lookupRoutingTable
  rw [hl]
  dsimp only
  rw [minWeightAux_ok dest st.weight _ 0 INFINITE_ (by omega)]
  dsimp only
  rw [candAux_ok dest st.weight _ _ 0 [] (by omega)]
  dsimp only
  rw [List.nil_append]
  rfl

theorem classMinWeight_le_INFINITE (st : RoutingState) (vnet : Nat) (dest : NetDest) :
    classMinWeight st vnet dest ≤ INFINITE_ :=
  minWeightSpec_le dest st.weight (classLinks st vnet) 0 INFINITE_

theorem classMinWeight_le_cand (st : RoutingState) (vnet : Nat) (dest : NetDest)
    (j : Nat) (hj : isCand (classLinks st vnet) dest j) :
    classMinWeight st vnet dest ≤ st.weight.getD j 0 := by
  have := minWeightSpec_le_cand dest st.weight (classLinks st vnet) 0 INFINITE_ j hj.1 hj.2
  simpa using this

theorem classCands_mem (st : RoutingState) (vnet : Nat) (dest : NetDest) (j : Nat) :
    j ∈ classCands st vnet dest ↔
      isCand (classLinks st vnet) dest j ∧
      st.weight.getD j 0 = classMinWeight st vnet dest := by
  unfold classCands
  rw [candSpec_mem dest st.weight (classMinWeight st vnet dest) (classLinks st vnet) 0 j]
  constructor
  · rintro ⟨k, hk, hjk, hki, hkv⟩
    have : j = k := by omega
    subst this
    exact ⟨⟨hk, hki⟩, hkv⟩
  · rintro ⟨⟨hjl, hji⟩, hjw⟩
    exact ⟨j, hjl, by omega, hji, hjw⟩

theorem classCands_ne_nil_iff (st : RoutingState) (vnet : Nat) (dest : NetDest) :
    classCands st vnet dest ≠ [] ↔
      ∃ j, isCand (classLinks st vnet) dest j ∧ st.weight.getD j 0 ≤ INFINITE_ := by
  constructor
  · intro hne
    rcases List.exists_mem_of_ne_nil _ hne with ⟨j, hj⟩
    rcases (classCands_mem st vnet dest j).mp hj with ⟨hjc, hjw⟩
    exact ⟨j, hjc, by rw [hjw]; exact classMinWeight_le_INFINITE st vnet dest⟩
  · rintro ⟨j0, hj0c, hj0w⟩ hnil
    have hmin : classMinWeight st vnet dest ≤ st.weight.getD j0 0 :=
      classMinWeight_le_cand st vnet dest j0 hj0c
    rcases minWeightSpec_attained dest st.weight (classLinks st vnet) 0 INFINITE_ with
      hInf | ⟨k, hk, hki, hkv⟩
    · have hj0min : st.weight.getD j0 0 = classMinWeight st vnet dest := by
        have : classMinWeight st vnet dest = INFINITE_ := hInf
        omega
      have : j0 ∈ classCands st vnet dest :=
        (classCands_mem st vnet dest j0).mpr ⟨hj0c, hj0min⟩
      rw [hnil] at this
      simp at this
    · simp only [Nat.zero_add] at hkv
      have : k ∈ classCands st vnet dest :=
        (classCands_mem st vnet dest k).mpr ⟨⟨hk, hki⟩, hkv.symm⟩
      rw [hnil] at this
      simp at this

/-- Claim C1 (amended): with a valid traffic class and a weight table at
least as long as the class's candidate-link list, lookupRoutingTable
aborts with the fatal no-route error if and only if no candidate link of
the class both intersects the query destination set and has weight at
most INFINITE_; and when some intersecting candidate has weight at most
INFINITE_, it returns the index of an intersecting candidate of minimum
weight among all intersecting candidates, never the sentinel -1. -/
theorem lookupRoutingTable_noroute_iff_and_min (st : RoutingState) (ordered : Bool)
    (randVal : Nat) (vnet : Nat) (dest : NetDest)
    (h1 : vnet < st.routing.length)
    (h2 : (classLinks st vnet).length ≤ st.weight.length) :
    (lookupRoutingTable st ordered randVal vnet dest =
        Except.error (RErr.fatal "No Route exists from this Router.") ↔
      ¬ ∃ j, isCand (classLinks st vnet) dest j ∧ st.weight.getD j 0 ≤ INFINITE_) ∧
    ((∃ j, isCand (classLinks st vnet) dest j ∧ st.weight.getD j 0 ≤ INFINITE_) →
      ∃ l : Nat, lookupRoutingTable st ordered randVal vnet dest = Except.ok (l : Int) ∧
        (l : Int) ≠ -1 ∧ isCand (classLinks st vnet) dest l ∧
        ∀ j, isCand (classLinks st vnet) dest j →
          st.weight.getD l 0 ≤ st.weight.getD j 0) := by
  rw [lookupRoutingTable_eq_pure st ordered randVal vnet dest h1 h2]
  unfold lookupPure
  by_cases hnil : classCands st vnet dest = []
  · have hno : ¬ ∃ j, isCand (classLinks st vnet) dest j ∧
        st.weight.getD j 0 ≤ INFINITE_ := by
      intro hex
      exact (classCands_ne_nil_iff st vnet dest).mpr hex hnil
    rw [if_pos (by simp [hnil])]
    exact ⟨⟨fun _ => hno, fun _ => rfl⟩, fun hex => absurd hex hno⟩
  · have hlen : (classCands st vnet dest).length ≠ 0 := by
      simpa [List.length_eq_zero] using hnil
    have hidx : (if ordered then 0
        else randVal % (classCands st vnet dest).length) < (classCands st vnet dest).length := by
      split
      · omega
      · exact Nat.mod_lt _ (by omega)
    rw [if_neg hlen, List.getElem?_eq_getElem hidx]
    dsimp only
    have hex : ∃ j, isCand (classLinks st vnet) dest j ∧ st.weight.getD j 0 ≤ INFINITE_ :=
      (classCands_ne_nil_iff st vnet dest).mp hnil
    have hlmem : (classCands st vnet dest)[(if ordered then 0
        else randVal % (classCands st vnet dest).length)] ∈ classCands st vnet dest :=
      List.getElem_mem _
    rcases (classCands_mem st vnet dest _).mp hlmem with ⟨hlc, hlw⟩
    constructor
    · constructor
      · intro habs; exact Except.noConfusion habs
      · intro hno; exact absurd hex hno
    · intro _
      refine ⟨_, rfl, by omega, hlc, ?_⟩
      intro j hj
      rw [hlw]
      exact classMinWeight_le_cand st vnet dest j hj

/-- Claim C1 counterexample: a routing table with a single candidate link
whose destination set intersects the query but whose weight 10001 exceeds
INFINITE_ makes lookupRoutingTable abort with the fatal no-route error
even though an intersecting candidate exists, contradicting the claimed
if-and-only-if. -/
theorem lookupRoutingTable_aborts_despite_intersection :
    intersectionIsNotEmpty [0] [0] = true ∧
    isCand [[0]] [0] 0 ∧
    lookupRoutingTable ⟨[[[0]]], [10001], []⟩ true 0 0 [0] =
      Except.error (RErr.fatal "No Route exists from this Router.") :=
  ⟨rfl, by decide, rfl⟩

/-- Witness for the amended claim C1 at a concrete table. -/
theorem lookupRoutingTable_noroute_iff_and_min_inst :
    ((lookupRoutingTable ⟨[[[5]]], [3], []⟩ true 0 0 [5] =
        Except.error (RErr.fatal "No Route exists from this Router.") ↔
      ¬ ∃ j, isCand (classLinks ⟨[[[5]]], [3], []⟩ 0) [5] j ∧
        ([3] : List Int).getD j 0 ≤ INFINITE_) ∧
    ((∃ j, isCand (classLinks ⟨[[[5]]], [3], []⟩ 0) [5] j ∧
        ([3] : List Int).getD j 0 ≤ INFINITE_) →
      ∃ l : Nat, lookupRoutingTable ⟨[[[5]]], [3], []⟩ true 0 0 [5] = Except.ok (l : Int) ∧
        (l : Int) ≠ -1 ∧ isCand (classLinks ⟨[[[5]]], [3], []⟩ 0) [5] l ∧
        ∀ j, isCand (classLinks ⟨[[[5]]], [3], []⟩ 0) [5] j →
          ([3] : List Int).getD l 0 ≤ ([3] : List Int).getD j 0)) :=
  lookupRoutingTable_noroute_iff_and_min ⟨[[[5]]], [3], []⟩ true 0 0 [5]
    (by decide) (by decide)

/-- Claim C4: for an ordered traffic class (valid class index, weight table
long enough, and some intersecting candidate of weight at most INFINITE_),
lookupRoutingTable returns, for every value of the random source, one and
the same link index: the lowest-index candidate among the minimum-weight
intersecting candidates. -/
theorem lookupRoutingTable_ordered_first (st : RoutingState) (vnet : Nat) (dest : NetDest)
    (h1 : vnet < st.routing.length)
    (h2 : (classLinks st vnet).length ≤ st.weight.length)
    (hex : ∃ j, isCand (classLinks st vnet) dest j ∧ st.weight.getD j 0 ≤ INFINITE_) :
    ∃ l : Nat,
      (∀ randVal : Nat, lookupRoutingTable st true randVal vnet dest = Except.ok (l : Int)) ∧
      isCand (classLinks st vnet) dest l ∧
      (∀ j, isCand (classLinks st vnet) dest j →
        st.weight.getD l 0 ≤ st.weight.getD j 0) ∧
      (∀ j, j < l →
        ¬ (isCand (classLinks st vnet) dest j ∧
           st.weight.getD j 0 = st.weight.getD l 0)) := by
  have hnil : classCands st vnet dest ≠ [] :=
    (classCands_ne_nil_iff st vnet dest).mpr hex
  rcases List.exists_cons_of_ne_nil hnil with ⟨hd, tl, hht⟩
  have hlen : (classCands st vnet dest).length ≠ 0 := by
    simpa [List.length_eq_zero] using hnil
  have hhdmem : hd ∈ classCands st vnet dest := by
    rw [hht]; exact List.mem_cons_self _ _
  rcases (classCands_mem st vnet dest hd).mp hhdmem with ⟨hhdc, hhdw⟩
  have hhdleast : ∀ j ∈ classCands st vnet dest, hd ≤ j := by
    have hpw : (classCands st vnet dest).Pairwise (· < ·) :=
      candSpec_pairwise dest st.weight (classMinWeight st vnet dest) (classLinks st vnet) 0
    intro j hj
    rw [hht] at hj hpw
    rcases List.mem_cons.mp hj with h | h
    · omega
    · have := (List.pairwise_cons.mp hpw).1 j h
      omega
  refine ⟨hd, ?_, hhdc, ?_, ?_⟩
  · intro randVal
    rw [lookupRoutingTable_eq_pure st true randVal vnet dest h1 h2]
    unfold lookupPure
    rw [if_neg hlen]
    have h0 : (if true then 0 else randVal % (classCands st vnet dest).length) = 0 := rfl
    rw [h0, hht]
    simp
  · intro j hj
    rw [hhdw]
    exact classMinWeight_le_cand st vnet dest j hj
  · rintro j hjl ⟨hjc, hjw⟩
    have hjmem : j ∈ classCands st vnet dest :=
      (classCands_mem st vnet dest j).mpr ⟨hjc, by rw [hjw, hhdw]⟩
    have := hhdleast j hjmem
    omega

/-- Witness for claim C4 at a concrete table with two minimum-weight
intersecting candidates, of which the first is chosen. -/
theorem lookupRoutingTable_ordered_first_inst :
    ∃ l : Nat,
      (∀ randVal : Nat,
        lookupRoutingTable ⟨[[[7], [7]]], [2, 2], []⟩ true randVal 0 [7] =
          Except.ok (l : Int)) ∧
      isCand (classLinks ⟨[[[7], [7]]], [2, 2], []⟩ 0) [7] l ∧
      (∀ j, isCand (classLinks ⟨[[[7], [7]]], [2, 2], []⟩ 0) [7] j →
        ([2, 2] : List Int).getD l 0 ≤ ([2, 2] : List Int).getD j 0) ∧
      (∀ j, j < l →
        ¬ (isCand (classLinks ⟨[[[7], [7]]], [2, 2], []⟩ 0) [7] j ∧
           ([2, 2] : List Int).getD j 0 = ([2, 2] : List Int).getD l 0)) :=
  lookupRoutingTable_ordered_first ⟨[[[7], [7]]], [2, 2], []⟩ 0 [7]
    (by decide) (by decide) ⟨0, by decide, by decide⟩

/-- Claim C9: with a valid traffic class index and the class's
candidate-link list no longer than the weight table, lookupRoutingTable
never reaches the out-of-bounds outcome: every container access the C++
code performs is in bounds. -/
theorem lookupRoutingTable_no_oob (st : RoutingState) (ordered : Bool) (randVal : Nat)
    (vnet : Nat) (dest : NetDest)
    (h1 : vnet < st.routing.length)
    (h2 : (classLinks st vnet).length ≤ st.weight.length) :
    lookupRoutingTable st ordered randVal vnet dest ≠ Except.error RErr.oob := by
  rw [lookupRoutingTable_eq_pure st ordered randVal vnet dest h1 h2]
  unfold lookupPure
  by_cases hlen : (classCands st vnet dest).length = 0
  · rw [if_pos hlen]
    intro habs
    simp at habs
  · have hidx : (if ordered then 0
        else randVal % (classCands st vnet dest).length) < (classCands st vnet dest).length := by
      split
      · omega
      · exact Nat.mod_lt _ (by omega)
    rw [if_neg hlen, List.getElem?_eq_getElem hidx]
    intro habs
    exact Except.noConfusion habs

/-- Witness for claim C9 at a concrete table. -/
theorem lookupRoutingTable_no_oob_inst :
    lookupRoutingTable ⟨[[[5]]], [3], []⟩ false 4 0 [5] ≠ Except.error RErr.oob :=
  lookupRoutingTable_no_oob ⟨[[[5]]], [3], []⟩ false 4 0 [5] (by decide) (by decide)

/-- Symbolic port direction, a std::string in the C++ code. -/
abbrev PortDirection := String

/-- Lookup in a direction-to-port std::map (keys unique; first match). -/
def mapFind (m : List (PortDirection × Int)) (d : PortDirection) : Option Int :=
  (m.find? (fun p => p.1 == d)).map (fun p => p.2)

/-- Reading a std::map with operator[]: a missing key yields a
value-initialised int, i.e. 0. -/
def mapGetDefault (m : List (PortDirection × Int)) (d : PortDirection) : Int :=
  (mapFind m d).getD 0

/-- The routing-algorithm selector the network configuration supplies.
UNKNOWN_ stands for any selector value outside the named ones; the
dispatcher's default case treats it as table lookup. -/
inductive RoutingAlgorithm where
  | TABLE_
  | XY_
  | CUSTOM_
  | TORUS3D_
  | TORUS3D_ADAPTIVE_
  | UNKNOWN_
deriving DecidableEq

/-- The ephemeral route query (RouteInfo fields the routing unit reads). -/
structure RouteInfo where
  vnet : Nat
  net_dest : NetDest
  dest_router : Int

/-- Read-only collaborator state the routing unit queries: the owning
router's id, mesh and torus dimensions, per-outport channels per traffic
class, total channel count, per-outport channel idleness at the current
tick, the per-class ordered flag, and the configured algorithm selector. -/
structure RouterEnv where
  myId : Int
  numRows : Int
  numCols : Int
  dimX : Int
  dimY : Int
  dimZ : Int
  vcsPerVnet : Int → Int
  numVcs : Int
  vcIdle : Int → Int → Bool
  orderedVnet : Nat → Bool
  alg : RoutingAlgorithm

/-- RoutingUnit::outportComputeXY: mesh dimension-order routing.  The two
asserts on the mesh dimensions and on the arrival direction, and the
already-at-destination assert, become the assert-failure outcome; the dead
final branch keeps the panic of the C++ code. -/
def outportComputeXY (env : RouterEnv) (st : RoutingState) (route : RouteInfo)
    (inport : Int) (inportDirn : PortDirection) : Except RErr Int :=
  if env.numRows > 0 ∧ env.numCols > 0 then
    let myX := env.myId.tmod env.numCols
    let myY := env.myId.tdiv env.numCols
    let destX := route.dest_router.tmod env.numCols
    let destY := route.dest_router.tdiv env.numCols
    let xHops := (destX - myX).natAbs
    let yHops := (destY - myY).natAbs
    if xHops = 0 ∧ yHops = 0 then Except.error RErr.assertFail
    else if xHops > 0 then
      if destX ≥ myX then
        if inportDirn = "Local" ∨ inportDirn = "West" then
          Except.ok (mapGetDefault st.outports "East")
        else Except.error RErr.assertFail
      else
        if inportDirn = "Local" ∨ inportDirn = "East" then
          Except.ok (mapGetDefault st.outports "West")
        else Except.error RErr.assertFail
    else if yHops > 0 then
      if destY ≥ myY then
        if inportDirn ≠ "North" then
          Except.ok (mapGetDefault st.outports "North")
        else Except.error RErr.assertFail
      else
        if inportDirn ≠ "South" then
          Except.ok (mapGetDefault st.outports "South")
        else Except.error RErr.assertFail
    else Except.error (RErr.panicked "x_hops == y_hops == 0")
  else Except.error RErr.assertFail

/-- RoutingUnit::outportComputeCustom: the unimplemented placeholder. -/
def outportComputeCustom (route : RouteInfo) (inport : Int)
    (inportDirn : PortDirection) : Except RErr Int :=
  Except.error (RErr.panicked "outportComputeCustom placeholder executed")

/-- The torus_distance lambda of the torus routers: forward and backward
wraparound distances; the pair holds the smaller distance and the chosen
orientation (true = forward), forward winning ties. -/
def torus_distance (curr dest dimSize : Int) : Int × Bool :=
  let forwardDist := (dest - curr + dimSize).tmod dimSize
  let backwardDist := (curr - dest + dimSize).tmod dimSize
  if forwardDist ≤ backwardDist then (forwardDist, true) else (backwardDist, false)

/-- A 3D router coordinate. -/
structure Coord3 where
  x : Int
  y : Int
  z : Int
deriving DecidableEq

/-- Router-id to 3D coordinate conversion of the torus routers
(row-major packing id = z*(dimX*dimY) + y*dimX + x). -/
def torusCoords (env : RouterEnv) (id : Int) : Coord3 :=
  let zc := id.tdiv (env.dimX * env.dimY)
  let rem := id.tmod (env.dimX * env.dimY)
  ⟨rem.tmod env.dimX, rem.tdiv env.dimX, zc⟩

/-- RoutingUnit::outportComputeTorus3D: 3D torus dimension-order routing:
X first, then Y, then Z, choosing the wraparound direction of smaller
distance, forward on ties. -/
def outportComputeTorus3D (env : RouterEnv) (st : RoutingState) (route : RouteInfo)
    (inport : Int) (inportDirn : PortDirection) : Except RErr Int :=
  let mc := torusCoords env env.myId
  let dc := torusCoords env route.dest_router
  let xr := torus_distance mc.x dc.x env.dimX
  let yr := torus_distance mc.y dc.y env.dimY
  let zr := torus_distance mc.z dc.z env.dimZ
  let dirn : Except RErr PortDirection :=
    if xr.1 > 0 then Except.ok (if xr.2 then "East" else "West")
    else if yr.1 > 0 then Except.ok (if yr.2 then "North" else "South")
    else if zr.1 > 0 then Except.ok (if zr.2 then "Up" else "Down")
    else Except.error
      (RErr.panicked "All dimensions have zero distance in 3D Torus routing")
  match dirn with
  | Except.error e => Except.error e
  | Except.ok d =>
    match mapFind st.outports d with
    | none => Except.error (RErr.panicked "3D Torus routing: outport direction not found")
    | some idx => Except.ok idx

/-- The minimal-path candidate directions the adaptive torus router
collects: one winning direction per axis with nonzero remaining distance,
in the order X, Y, Z. -/
def adaptiveCandidates (env : RouterEnv) (destId : Int) : List PortDirection :=
  let mc := torusCoords env env.myId
  let dc := torusCoords env destId
  let xr := torus_distance mc.x dc.x env.dimX
  let yr := torus_distance mc.y dc.y env.dimY
  let zr := torus_distance mc.z dc.z env.dimZ
  (if xr.1 > 0 then [if xr.2 then "East" else "West"] else []) ++
    (if yr.1 > 0 then [if yr.2 then "North" else "South"] else []) ++
    (if zr.1 > 0 then [if zr.2 then "Up" else "Down"] else [])

/-- The int list a C++ loop for (int i = a; i < b; i++) walks. -/
def intRangeFrom (a b : Int) : List Int :=
  (List.range (b - a).toNat).map (fun i : Nat => a + (i : Int))

/-- RoutingUnit::checkAdaptiveVCAvailability: some adaptive channel
(offset 1 and above inside any traffic class's lane group) of the outport
is idle at the current tick. -/
def checkAdaptiveVCAvailability (env : RouterEnv) (outportIdx : Int) : Bool :=
  let vpv := env.vcsPerVnet outportIdx
  let numVnets := env.numVcs.tdiv vpv
  (intRangeFrom 0 numVnets).any (fun vnet =>
    (intRangeFrom 1 vpv).any (fun off => env.vcIdle outportIdx (vnet * vpv + off)))

/-- RoutingUnit::getDirectionCongestionScore: count total and idle
adaptive channels over every traffic class of the outport; score is
total minus idle (or 100 when the port has no adaptive channels), plus
the rand() percent 3 tie-break perturbation, with r the rand() draw. -/
def getDirectionCongestionScore (env : RouterEnv) (outportIdx : Int) (r : Nat) : Int :=
  let vpv := env.vcsPerVnet outportIdx
  let numVnets := env.numVcs.tdiv vpv
  let counts := (intRangeFrom 0 numVnets).foldl (fun (acc : Int × Int) vnet =>
    (intRangeFrom 1 vpv).foldl (fun (acc2 : Int × Int) off =>
      (acc2.1 + 1,
        if env.vcIdle outportIdx (vnet * vpv + off) then acc2.2 + 1 else acc2.2)) acc)
    ((0 : Int), (0 : Int))
  let congestion := if counts.1 > 0 then counts.1 - counts.2 else (100 : Int)
  congestion + ((r % 3 : Nat) : Int)

/-- C++ INT_MAX, the initial best congestion score. -/
def INT_MAX : Int := 2147483647

/-- Loop state of the adaptive-search loop of
outportComputeTorus3DAdaptive: best score so far, best direction so far,
whether an adaptive path was found, and how many rand() draws the loop
has consumed (so the pert stream indexes the draws in call order). -/
structure AdaptState where
  bestScore : Int
  bestDirn : PortDirection
  found : Bool
  calls : Nat
deriving DecidableEq

/-- One iteration of the adaptive-search loop over a candidate
direction: skip it when the direction is unregistered or has no idle
adaptive channel; otherwise score it and keep it when strictly better. -/
def adaptiveStep (env : RouterEnv) (outports : List (PortDirection × Int))
    (pert : Nat → Nat) (a : AdaptState) (direction : PortDirection) : AdaptState :=
  match mapFind outports direction with
  | none => a
  | some outportIdx =>
    if checkAdaptiveVCAvailability env outportIdx then
      let score := getDirectionCongestionScore env outportIdx (pert a.calls)
      if score < a.bestScore then ⟨score, direction, true, a.calls + 1⟩
      else ⟨a.bestScore, a.bestDirn, a.found, a.calls + 1⟩
    else a

/-- The adaptive-search loop over the candidate directions. -/
def adaptiveLoop (env : RouterEnv) (outports : List (PortDirection × Int))
    (pert : Nat → Nat) : List PortDirection → AdaptState → AdaptState
  | [], a => a
  | d :: rest, a => adaptiveLoop env outports pert rest (adaptiveStep env outports pert a d)

/-- RoutingUnit::outportComputeTorus3DAdaptive: congestion-aware selection
among the minimal-path candidates, falling back to the deterministic
dimension-order direction (the escape channel) when no candidate has an
idle adaptive channel. -/
def outportComputeTorus3DAdaptive (env : RouterEnv) (st : RoutingState) (pert : Nat → Nat)
    (route : RouteInfo) (inport : Int) (inportDirn : PortDirection) : Except RErr Int :=
  let mc := torusCoords env env.myId
  let dc := torusCoords env route.dest_router
  let xr := torus_distance mc.x dc.x env.dimX
  let yr := torus_distance mc.y dc.y env.dimY
  let zr := torus_distance mc.z dc.z env.dimZ
  let cands := adaptiveCandidates env route.dest_router
  if cands.isEmpty then
    Except.error (RErr.panicked "No adaptive candidates in 3D Torus adaptive routing")
  else
    let final := adaptiveLoop env st.outports pert cands ⟨INT_MAX, "Unknown", false, 0⟩
    let best :=
      if final.found then final.bestDirn
      else
        if xr.1 > 0 then (if xr.2 then "East" else "West")
        else if yr.1 > 0 then (if yr.2 then "North" else "South")
        else if zr.1 > 0 then (if zr.2 then "Up" else "Down")
        else "Unknown"
    match mapFind st.outports best with
    | none =>
      Except.error (RErr.panicked "3D Torus adaptive routing: selected direction not found")
    | some idx => Except.ok idx

/-- RoutingUnit::outportCompute: destination-local queries go to the
routing table; otherwise dispatch on the configured algorithm selector,
then assert the result is not the no-port sentinel. -/
def outportCompute (env : RouterEnv) (st : RoutingState) (randVal : Nat) (pert : Nat → Nat)
    (route : RouteInfo) (inport : Int) (inportDirn : PortDirection) : Except RErr Int :=
  if route.dest_router = env.myId then
    lookupRoutingTable st (env.orderedVnet route.vnet) randVal route.vnet route.net_dest
  else
    let r :=
      match env.alg with
      | RoutingAlgorithm.TABLE_ =>
        lookupRoutingTable st (env.orderedVnet route.vnet) randVal route.vnet route.net_dest
      | RoutingAlgorithm.XY_ => outportComputeXY env st route inport inportDirn
      | RoutingAlgorithm.CUSTOM_ => outportComputeCustom route inport inportDirn
      | RoutingAlgorithm.TORUS3D_ => outportComputeTorus3D env st route inport inportDirn
      | RoutingAlgorithm.TORUS3D_ADAPTIVE_ =>
        outportComputeTorus3DAdaptive env st pert route inport inportDirn
      | RoutingAlgorithm.UNKNOWN_ =>
        lookupRoutingTable st (env.orderedVnet route.vnet) randVal route.vnet route.net_dest
    match r with
    | Except.ok v => if v = -1 then Except.error RErr.assertFail else Except.ok v
    | Except.error e => Except.error e

/-- RoutingUnit::supportsVnet: an empty allowed-class list supports every
class; otherwise membership decides. -/
def supportsVnet (vnet : Int) (sVnets : List Int) : Bool :=
  if sVnets.length = 0 then true
  else if sVnets.contains vnet then true
  else false

/-- RoutingUnit::addRoute: grow the table to the entry's class count if
needed (std::vector::resize appends default-constructed empty lists), then
append entry[v] to class v's list for every v below the entry's size. -/
def addRoute (table : List (List NetDest)) (entry : List NetDest) : List (List NetDest) :=
  let t := if entry.length > table.length
    then table ++ List.replicate (entry.length - table.length) ([] : List NetDest)
    else table
  t.mapIdx (fun v l => if v < entry.length then l ++ [entry.getD v []] else l)

theorem tdiv_tmod_pack (q r n : Int) (hq : 0 ≤ q) (hr : 0 ≤ r) (hrn : r < n) :
    (q * n + r).tdiv n = q ∧ (q * n + r).tmod n = r := by
  have hn : 0 < n := lt_of_le_of_lt hr hrn
  have ha : 0 ≤ q * n + r := add_nonneg (mul_nonneg hq hn.le) hr
  constructor
  · rw [Int.tdiv_eq_ediv ha hn.le, Int.add_comm,
      Int.add_mul_ediv_right r q (by omega : n ≠ 0),
      Int.ediv_eq_zero_of_lt hr hrn, Int.zero_add]
  · rw [Int.tmod_eq_emod ha hn.le, Int.add_comm, Int.add_mul_emod_self,
      Int.emod_eq_of_lt hr hrn]

/-- Claim C5: a query whose destination router equals the owning router's
id resolves through the Routing Table Engine (lookupRoutingTable on the
query traffic class and destination set), whatever the configured
routing-algorithm selector. -/
theorem outportCompute_local_delegates (env : RouterEnv) (st : RoutingState)
    (randVal : Nat) (pert : Nat → Nat) (route : RouteInfo) (inport : Int)
    (inportDirn : PortDirection) (h : route.dest_router = env.myId) :
    outportCompute env st randVal pert route inport inportDirn =
      lookupRoutingTable st (env.orderedVnet route.vnet) randVal route.vnet
        route.net_dest := by
  unfold outportCompute
  rw [if_pos h]

/-- Witness for claim C5 with the selector set to the mesh algorithm. -/
theorem outportCompute_local_delegates_inst :
    outportCompute
      ⟨0, 1, 1, 1, 1, 1, fun _ => 1, 1, fun _ _ => false, fun _ => true,
        RoutingAlgorithm.XY_⟩
      ⟨[[[5]]], [3], []⟩ 0 (fun _ => 0) ⟨0, [5], 0⟩ 0 "Local" =
      lookupRoutingTable ⟨[[[5]]], [3], []⟩ true 0 0 [5] :=
  outportCompute_local_delegates
    ⟨0, 1, 1, 1, 1, 1, fun _ => 1, 1, fun _ _ => false, fun _ => true,
      RoutingAlgorithm.XY_⟩
    ⟨[[[5]]], [3], []⟩ 0 (fun _ => 0) ⟨0, [5], 0⟩ 0 "Local" rfl

/-- Claim C6: on a mesh with coordinates read off the router ids through
id = y * numCols + x, outportComputeXY routes along X first whenever the
X coordinates differ, regardless of the Y delta, East when the
destination column is at least the current one and West otherwise; when
the X coordinates agree it routes North or South by the sign of the Y
delta; the direction is resolved through the out-direction registry (a
registered direction yields its registered port); and when both deltas
are zero the already-at-destination assertion aborts. -/
theorem outportComputeXY_dor (env : RouterEnv) (st : RoutingState)
    (myX myY destX destY : Int) (route : RouteInfo) (inport : Int)
    (inportDirn : PortDirection)
    (hrows : 0 < env.numRows) (hcols : 0 < env.numCols)
    (hmx : 0 ≤ myX) (hmx' : myX < env.numCols) (hmy : 0 ≤ myY)
    (hdx : 0 ≤ destX) (hdx' : destX < env.numCols) (hdy : 0 ≤ destY)
    (hid : env.myId = myY * env.numCols + myX)
    (hdest : route.dest_router = destY * env.numCols + destX) :
    (destX ≠ myX →
      (inportDirn = "Local" ∨ inportDirn = (if destX ≥ myX then "West" else "East")) →
      outportComputeXY env st route inport inportDirn =
        Except.ok (mapGetDefault st.outports (if destX ≥ myX then "East" else "West"))) ∧
    (destX = myX → destY ≠ myY →
      inportDirn ≠ (if destY ≥ myY then "North" else "South") →
      outportComputeXY env st route inport inportDirn =
        Except.ok (mapGetDefault st.outports (if destY ≥ myY then "North" else "South"))) ∧
    (∀ d p, mapFind st.outports d = some p → mapGetDefault st.outports d = p) ∧
    (destX = myX → destY = myY →
      outportComputeXY env st route inport inportDirn = Except.error RErr.assertFail) := by
  have hpack1 := tdiv_tmod_pack myY myX env.numCols hmy hmx hmx'
  have hpack2 := tdiv_tmod_pack destY destX env.numCols hdy hdx hdx'
  unfold outportComputeXY
  rw [if_pos (show env.numRows > 0 ∧ env.numCols > 0 from ⟨hrows, hcols⟩)]
  simp only [hid, hdest, hpack1.1, hpack1.2, hpack2.1, hpack2.2]
  refine ⟨?_, ?_, ?_, ?_⟩
  · intro hne hin
    have hna : ¬ ((destX - myX).natAbs = 0 ∧ (destY - myY).natAbs = 0) := by omega
    have hxh : (destX - myX).natAbs > 0 := by omega
    rw [if_neg hna, if_pos hxh]
    by_cases hxd : destX ≥ myX
    · have hin' : inportDirn = "Local" ∨ inportDirn = "West" := by
        rw [if_pos hxd] at hin; exact hin
      rw [if_pos hxd, if_pos hxd, if_pos hin']
    · have hin' : inportDirn = "Local" ∨ inportDirn = "East" := by
        rw [if_neg hxd] at hin; exact hin
      rw [if_neg hxd, if_neg hxd, if_pos hin']
  · intro hxeq hyne hin
    have hna : ¬ ((destX - myX).natAbs = 0 ∧ (destY - myY).natAbs = 0) := by omega
    have hxa : ¬ ((destX - myX).natAbs > 0) := by omega
    have hya : (destY - myY).natAbs > 0 := by omega
    rw [if_neg hna, if_neg hxa, if_pos hya]
    by_cases hyd : destY ≥ myY
    · have hin' : inportDirn ≠ "North" := by rw [if_pos hyd] at hin; exact hin
      rw [if_pos hyd, if_pos hyd, if_pos hin']
    · have hin' : inportDirn ≠ "South" := by rw [if_neg hyd] at hin; exact hin
      rw [if_neg hyd, if_neg hyd, if_pos hin']
  · intro d p h
    unfold mapGetDefault
    rw [h]
    rfl
  · intro hxeq hyeq
    have hpos : (destX - myX).natAbs = 0 ∧ (destY - myY).natAbs = 0 := by
      constructor <;> omega
    rw [if_pos hpos]

/-- Witness for claim C6: a 2-column mesh, current router 0 at (0,0),
destination router 3 at (1,1); the X axis wins and East is returned even
though the Y delta is nonzero. -/
theorem outportComputeXY_dor_inst :
    outportComputeXY
      ⟨0, 2, 2, 1, 1, 1, fun _ => 1, 1, fun _ _ => false, fun _ => true,
        RoutingAlgorithm.XY_⟩
      ⟨[], [], [("East", 3)]⟩ ⟨0, [], 3⟩ 0 "Local" = Except.ok 3 :=
  (outportComputeXY_dor
      ⟨0, 2, 2, 1, 1, 1, fun _ => 1, 1, fun _ _ => false, fun _ => true,
        RoutingAlgorithm.XY_⟩
      ⟨[], [], [("East", 3)]⟩ 0 0 1 1 ⟨0, [], 3⟩ 0 "Local"
      (by decide) (by decide) (by decide) (by decide) (by decide)
      (by decide) (by decide) (by decide) rfl rfl).1
    (by decide) (Or.inl rfl)

theorem torus_distance_minmax (c d n : Int) (hc : 0 ≤ c) (hc' : c < n)
    (hd : 0 ≤ d) (hd' : d < n) :
    torus_distance c d n =
      (min ((d - c + n) % n) ((c - d + n) % n),
        decide ((d - c + n) % n ≤ (c - d + n) % n)) := by
  have hf : (d - c + n).tmod n = (d - c + n) % n :=
    Int.tmod_eq_emod (by omega) (by omega)
  have hb : (c - d + n).tmod n = (c - d + n) % n :=
    Int.tmod_eq_emod (by omega) (by omega)
  unfold torus_distance
  dsimp only
  rw [hf, hb]
  by_cases hle : (d - c + n) % n ≤ (c - d + n) % n
  · rw [if_pos hle, min_eq_left hle, decide_eq_true hle]
  · rw [if_neg hle, min_eq_right (le_of_not_le hle), decide_eq_false hle]

theorem torusCoords_pack (env : RouterEnv) (x y z : Int)
    (hx : 0 ≤ x) (hx' : x < env.dimX) (hy : 0 ≤ y) (hy' : y < env.dimY) (hz : 0 ≤ z) :
    torusCoords env (z * (env.dimX * env.dimY) + (y * env.dimX + x)) = ⟨x, y, z⟩ := by
  have hX : 0 < env.dimX := lt_of_le_of_lt hx hx'
  have hY : 0 < env.dimY := lt_of_le_of_lt hy hy'
  have hrem0 : 0 ≤ y * env.dimX + x := add_nonneg (mul_nonneg hy hX.le) hx
  have hrem1 : y * env.dimX + x < env.dimX * env.dimY := by
    have h1 : y * env.dimX + x < (y + 1) * env.dimX := by nlinarith
    have h2 : (y + 1) * env.dimX ≤ env.dimY * env.dimX := by nlinarith
    nlinarith
  obtain ⟨hdq, hmq⟩ :=
    tdiv_tmod_pack z (y * env.dimX + x) (env.dimX * env.dimY) hz hrem0 hrem1
  obtain ⟨hdq2, hmq2⟩ := tdiv_tmod_pack y x env.dimX hy hx hx'
  unfold torusCoords
  dsimp only
  rw [hdq, hmq, hdq2, hmq2]

/-- The torus dimension-order direction as the spec words it: per axis the
forward distance (dest - cur + dim) mod dim and the backward distance
(cur - dest + dim) mod dim, the smaller distance winning with forward
winning ties, routed along the first axis in the order X, Y, Z whose
distance is nonzero; none when already at the destination. -/
def specTorusDirection (X Y Z cx cy cz dxc dyc dzc : Int) : Option PortDirection :=
  if min ((dxc - cx + X) % X) ((cx - dxc + X) % X) ≠ 0 then
    some (if (dxc - cx + X) % X ≤ (cx - dxc + X) % X then "East" else "West")
  else if min ((dyc - cy + Y) % Y) ((cy - dyc + Y) % Y) ≠ 0 then
    some (if (dyc - cy + Y) % Y ≤ (cy - dyc + Y) % Y then "North" else "South")
  else if min ((dzc - cz + Z) % Z) ((cz - dzc + Z) % Z) ≠ 0 then
    some (if (dzc - cz + Z) % Z ≤ (cz - dzc + Z) % Z then "Up" else "Down")
  else none

/-- Claim C2: on a 3D torus with positive dimensions and coordinates read
off router ids through id = z*(X*Y) + y*X + x, each axis's torus_distance
is the minimum of the forward distance (dest - cur + dim) mod dim and the
backward distance (cur - dest + dim) mod dim, an exact tie resolving to
the forward orientation; and outportComputeTorus3D routes along the first
axis in the order X, Y, Z whose distance is nonzero, in the direction the
winning orientation dictates (resolved through the out-direction
registry, with the panic outcomes of the code otherwise). -/
theorem outportComputeTorus3D_spec (env : RouterEnv) (st : RoutingState)
    (route : RouteInfo) (inport : Int) (inportDirn : PortDirection)
    (cx cy cz dxc dyc dzc : Int)
    (hcx : 0 ≤ cx) (hcx' : cx < env.dimX) (hcy : 0 ≤ cy) (hcy' : cy < env.dimY)
    (hcz : 0 ≤ cz) (hcz' : cz < env.dimZ)
    (hdx : 0 ≤ dxc) (hdx' : dxc < env.dimX) (hdy : 0 ≤ dyc) (hdy' : dyc < env.dimY)
    (hdz : 0 ≤ dzc) (hdz' : dzc < env.dimZ)
    (hid : env.myId = cz * (env.dimX * env.dimY) + (cy * env.dimX + cx))
    (hdest : route.dest_router = dzc * (env.dimX * env.dimY) + (dyc * env.dimX + dxc)) :
    (torus_distance cx dxc env.dimX =
      (min ((dxc - cx + env.dimX) % env.dimX) ((cx - dxc + env.dimX) % env.dimX),
        decide ((dxc - cx + env.dimX) % env.dimX ≤ (cx - dxc + env.dimX) % env.dimX))) ∧
    (torus_distance cy dyc env.dimY =
      (min ((dyc - cy + env.dimY) % env.dimY) ((cy - dyc + env.dimY) % env.dimY),
        decide ((dyc - cy + env.dimY) % env.dimY ≤ (cy - dyc + env.dimY) % env.dimY))) ∧
    (torus_distance cz dzc env.dimZ =
      (min ((dzc - cz + env.dimZ) % env.dimZ) ((cz - dzc + env.dimZ) % env.dimZ),
        decide ((dzc - cz + env.dimZ) % env.dimZ ≤ (cz - dzc + env.dimZ) % env.dimZ))) ∧
    ((dxc - cx + env.dimX) % env.dimX = (cx - dxc + env.dimX) % env.dimX →
      (torus_distance cx dxc env.dimX).2 = true) ∧
    (outportComputeTorus3D env st route inport inportDirn =
      match specTorusDirection env.dimX env.dimY env.dimZ cx cy cz dxc dyc dzc with
      | none =>
        Except.error (RErr.panicked "All dimensions have zero distance in 3D Torus routing")
      | some d =>
        match mapFind st.outports d with
        | none =>
          Except.error (RErr.panicked "3D Torus routing: outport direction not found")
        | some idx => Except.ok idx) := by
  have hx := torus_distance_minmax cx dxc env.dimX hcx hcx' hdx hdx'
  have hy := torus_distance_minmax cy dyc env.dimY hcy hcy' hdy hdy'
  have hz := torus_distance_minmax cz dzc env.dimZ hcz hcz' hdz hdz'
  refine ⟨hx, hy, hz, ?_, ?_⟩
  · intro htie
    rw [hx]
    simp [htie]
  · have hcm : torusCoords env env.myId = ⟨cx, cy, cz⟩ := by
      rw [hid]; exact torusCoords_pack env cx cy cz hcx hcx' hcy hcy' hcz
    have hcd : torusCoords env route.dest_router = ⟨dxc, dyc, dzc⟩ := by
      rw [hdest]; exact torusCoords_pack env dxc dyc dzc hdx hdx' hdy hdy' hdz
    have fX0 : 0 ≤ (dxc - cx + env.dimX) % env.dimX := Int.emod_nonneg _ (by omega)
    have bX0 : 0 ≤ (cx - dxc + env.dimX) % env.dimX := Int.emod_nonneg _ (by omega)
    have fY0 : 0 ≤ (dyc - cy + env.dimY) % env.dimY := Int.emod_nonneg _ (by omega)
    have bY0 : 0 ≤ (cy - dyc + env.dimY) % env.dimY := Int.emod_nonneg _ (by omega)
    have fZ0 : 0 ≤ (dzc - cz + env.dimZ) % env.dimZ := Int.emod_nonneg _ (by omega)
    have bZ0 : 0 ≤ (cz - dzc + env.dimZ) % env.dimZ := Int.emod_nonneg _ (by omega)
    unfold outportComputeTorus3D specTorusDirection
    rw [hcm, hcd]
    dsimp only
    rw [hx, hy, hz]
    dsimp only
    by_cases h1 :
        min ((dxc - cx + env.dimX) % env.dimX) ((cx - dxc + env.dimX) % env.dimX) = 0
    · have hng : ¬ (min ((dxc - cx + env.dimX) % env.dimX)
          ((cx - dxc + env.dimX) % env.dimX) > 0) := by omega
      rw [if_neg hng, if_neg (not_not_intro h1)]
      by_cases h2 :
          min ((dyc - cy + env.dimY) % env.dimY) ((cy - dyc + env.dimY) % env.dimY) = 0
      · have hng2 : ¬ (min ((dyc - cy + env.dimY) % env.dimY)
            ((cy - dyc + env.dimY) % env.dimY) > 0) := by omega
        rw [if_neg hng2, if_neg (not_not_intro h2)]
        by_cases h3 :
            min ((dzc - cz + env.dimZ) % env.dimZ) ((cz - dzc + env.dimZ) % env.dimZ) = 0
        · have hng3 : ¬ (min ((dzc - cz + env.dimZ) % env.dimZ)
              ((cz - dzc + env.dimZ) % env.dimZ) > 0) := by omega
          rw [if_neg hng3, if_neg (not_not_intro h3)]
        · have hg3 : min ((dzc - cz + env.dimZ) % env.dimZ)
              ((cz - dzc + env.dimZ) % env.dimZ) > 0 := by
            have := le_min fZ0 bZ0
            omega
          rw [if_pos hg3, if_pos h3]
          by_cases hfb :
              (dzc - cz + env.dimZ) % env.dimZ ≤ (cz - dzc + env.dimZ) % env.dimZ
          · simp [hfb]
          · simp [hfb]
      · have hg2 : min ((dyc - cy + env.dimY) % env.dimY)
            ((cy - dyc + env.dimY) % env.dimY) > 0 := by
          have := le_min fY0 bY0
          omega
        rw [if_pos hg2, if_pos h2]
        by_cases hfb :
            (dyc - cy + env.dimY) % env.dimY ≤ (cy - dyc + env.dimY) % env.dimY
        · simp [hfb]
        · simp [hfb]
    · have hg1 : min ((dxc - cx + env.dimX) % env.dimX)
          ((cx - dxc + env.dimX) % env.dimX) > 0 := by
        have := le_min fX0 bX0
        omega
      rw [if_pos hg1, if_pos h1]
      by_cases hfb :
          (dxc - cx + env.dimX) % env.dimX ≤ (cx - dxc + env.dimX) % env.dimX
      · simp [hfb]
      · simp [hfb]

/-- Witness for claim C2: the spec's example, a 4 by 4 by 1 torus, current
router 0 at (0,0,0), destination router 10 at (2,2,0): the forward and
backward X distances tie at 2 and East is chosen. -/
theorem outportComputeTorus3D_spec_inst :
    outportComputeTorus3D
        ⟨0, 1, 1, 4, 4, 1, fun _ => 1, 1, fun _ _ => false, fun _ => true,
          RoutingAlgorithm.TORUS3D_⟩
        ⟨[], [], [("East", 1)]⟩ ⟨0, [], 10⟩ 0 "Local" = Except.ok 1 ∧
    specTorusDirection 4 4 1 0 0 0 2 2 0 = some "East" ∧
    ((2 - 0 + 4 : Int) % 4 = (0 - 2 + 4 : Int) % 4) := by
  have h := (outportComputeTorus3D_spec
    ⟨0, 1, 1, 4, 4, 1, fun _ => 1, 1, fun _ _ => false, fun _ => true,
      RoutingAlgorithm.TORUS3D_⟩
    ⟨[], [], [("East", 1)]⟩ ⟨0, [], 10⟩ 0 "Local" 0 0 0 2 2 0
    (by decide) (by decide) (by decide) (by decide) (by decide) (by decide)
    (by decide) (by decide) (by decide) (by decide) (by decide) (by decide)
    (by decide) (by decide)).2.2.2.2
  refine ⟨?_, by decide, by decide⟩
  rw [h]
  rfl

theorem addRoute_length (t : List (List NetDest)) (e : List NetDest) :
    (addRoute t e).length = max t.length e.length := by
  unfold addRoute
  by_cases h : e.length > t.length
  · rw [if_pos h]
    simp
    omega
  · rw [if_neg h]
    simp
    omega

theorem getD_eq_default_of_le {α : Type} (l : List α) (v : Nat) (d : α)
    (h : l.length ≤ v) : l.getD v d = d := by
  simp [List.getD_eq_getElem?_getD, List.getElem?_eq_none h]

theorem mapIdx_getD_lt (l : List (List NetDest)) (f : Nat → List NetDest → List NetDest)
    (v : Nat) (hv : v < l.length) (d : List NetDest) :
    (l.mapIdx f).getD v d = f v (l.getD v d) := by
  have hv' : v < (l.mapIdx f).length := by simpa using hv
  rw [List.getD_eq_getElem?_getD, List.getD_eq_getElem?_getD,
    List.getElem?_eq_getElem hv', List.getElem?_eq_getElem hv]
  simp

theorem addRoute_getD_lt (t : List (List NetDest)) (e : List NetDest) (v : Nat)
    (hv : v < e.length) :
    (addRoute t e).getD v [] = t.getD v [] ++ [e.getD v []] := by
  unfold addRoute
  by_cases h : e.length > t.length
  · rw [if_pos h]
    rw [mapIdx_getD_lt _ _ v (by simp; omega)]
    rw [if_pos hv]
    congr 1
    by_cases hvt : v < t.length
    · rw [List.getD_eq_getElem?_getD, List.getD_eq_getElem?_getD,
        List.getElem?_append, if_pos hvt]
    · rw [getD_eq_default_of_le t v [] (by omega)]
      rw [List.getD_eq_getElem?_getD, List.getElem?_append, if_neg hvt,
        List.getElem?_replicate, if_pos (by omega)]
      rfl
  · rw [if_neg h]
    rw [mapIdx_getD_lt _ _ v (by omega)]
    rw [if_pos hv]

theorem addRoute_getD_ge (t : List (List NetDest)) (e : List NetDest) (v : Nat)
    (hv : e.length ≤ v) :
    (addRoute t e).getD v [] = t.getD v [] := by
  unfold addRoute
  by_cases h : e.length > t.length
  · rw [if_pos h]
    rw [getD_eq_default_of_le _ v [] (by simp; omega),
      getD_eq_default_of_le t v [] (by omega)]
  · rw [if_neg h]
    by_cases hvt : v < t.length
    · rw [mapIdx_getD_lt _ _ v (by omega)]
      rw [if_neg (by omega)]
    · rw [getD_eq_default_of_le _ v [] (by simp; omega),
        getD_eq_default_of_le t v [] (by omega)]

theorem foldl_addRoute_len (es : List (List NetDest)) (n : Nat) :
    (∀ x ∈ es, x.length = n) →
    ∀ (t : List (List NetDest)) (v : Nat), v < n →
      ((List.foldl addRoute t es).getD v []).length = (t.getD v []).length + es.length := by
  induction es with
  | nil => intro _ t v _; simp
  | cons e rest ih =>
    intro hn t v hv
    simp only [List.foldl_cons]
    rw [ih (fun x hx => hn x (List.mem_cons_of_mem _ hx)) (addRoute t e) v hv]
    have he : e.length = n := hn e (List.mem_cons_self _ _)
    rw [addRoute_getD_lt t e v (by omega)]
    simp [List.length_cons]
    omega

/-- Claim C8 (amended): addRoute grows the table to the larger of its old
class count and the entry's class count, appends entry[v] to class v's
list for every class index v below the entry's length, and leaves every
higher class untouched; consequently after a sequence of addRoute calls
whose entries all have the same class count n, every class below n has
exactly one entry per call. -/
theorem addRoute_appends (t : List (List NetDest)) (e : List NetDest) :
    ((addRoute t e).length = max t.length e.length) ∧
    (∀ v, v < e.length → (addRoute t e).getD v [] = t.getD v [] ++ [e.getD v []]) ∧
    (∀ v, e.length ≤ v → (addRoute t e).getD v [] = t.getD v []) ∧
    (∀ (es : List (List NetDest)) (n : Nat), (∀ x ∈ es, x.length = n) →
      ∀ v, v < n → ((List.foldl addRoute [] es).getD v []).length = es.length) := by
  refine ⟨addRoute_length t e, fun v hv => addRoute_getD_lt t e v hv,
    fun v hv => addRoute_getD_ge t e v hv, ?_⟩
  intro es n hn v hv
  rw [foldl_addRoute_len es n hn [] v hv]
  simp

/-- Claim C8 counterexample: two addRoute calls whose entries have
different class counts (two classes, then one class) leave traffic class
1 with a single entry after two calls, refuting the claim that every call
appends one entry to every traffic class's list. -/
theorem addRoute_skips_high_classes :
    (addRoute (addRoute [] [[0], [1]]) [[2]]).length = 2 ∧
    ((addRoute (addRoute [] [[0], [1]]) [[2]]).getD 0 []).length = 2 ∧
    ((addRoute (addRoute [] [[0], [1]]) [[2]]).getD 1 []).length = 1 := by
  decide

/-- Witness for the amended claim C8: instantiated at one call, plus the
same-width fold consequence evaluated on a concrete two-call sequence. -/
theorem addRoute_appends_inst :
    ((addRoute [] [[0], [1]]).length = max ([] : List (List NetDest)).length 2) ∧
    (((List.foldl addRoute [] [[[0], [1]], [[2], [3]]]).getD 0 []).length = 2) ∧
    (((List.foldl addRoute [] [[[0], [1]], [[2], [3]]]).getD 1 []).length = 2) :=
  ⟨(addRoute_appends [] [[0], [1]]).1,
    (addRoute_appends [] [[0], [1]]).2.2.2 [[[0], [1]], [[2], [3]]] 2
      (by decide) 0 (by decide),
    (addRoute_appends [] [[0], [1]]).2.2.2 [[[0], [1]], [[2], [3]]] 2
      (by decide) 1 (by decide)⟩

/-- The adaptive (non-escape) channel ids of an outport: offsets 1 and
above inside the lane group of every traffic class, as the spec describes
the aggregation. -/
def adaptiveVcIds (env : RouterEnv) (p : Int) : List Int :=
  (intRangeFrom 0 (env.numVcs.tdiv (env.vcsPerVnet p))).flatMap
    (fun vnet => (intRangeFrom 1 (env.vcsPerVnet p)).map
      (fun off => vnet * env.vcsPerVnet p + off))

/-- Total adaptive channel count of an outport. -/
def totalAdaptiveVcs (env : RouterEnv) (p : Int) : Int :=
  ((adaptiveVcIds env p).length : Int)

/-- Idle adaptive channel count of an outport. -/
def idleAdaptiveVcs (env : RouterEnv) (p : Int) : Int :=
  (((adaptiveVcIds env p).countP (fun vc => env.vcIdle p vc) : Nat) : Int)

theorem innerCountFold (q : Int → Bool) (L : List Int) :
    ∀ acc : Int × Int,
      L.foldl (fun acc2 off => (acc2.1 + 1, if q off then acc2.2 + 1 else acc2.2)) acc =
        (acc.1 + (L.length : Int), acc.2 + ((L.countP q : Nat) : Int)) := by
  induction L with
  | nil => intro acc; simp
  | cons a l ih =>
    intro acc
    simp only [List.foldl_cons, ih, List.length_cons, List.countP_cons]
    rw [Prod.ext_iff]
    constructor
    · simp
      push_cast
      omega
    · by_cases hq : q a <;> simp [hq] <;> push_cast <;> omega

theorem outerCountFold (env : RouterEnv) (p vpv : Int) (vs : List Int) :
    ∀ acc : Int × Int,
      vs.foldl (fun acc1 vnet =>
        (intRangeFrom 1 vpv).foldl (fun acc2 off =>
          (acc2.1 + 1,
            if env.vcIdle p (vnet * vpv + off) then acc2.2 + 1 else acc2.2)) acc1) acc =
      (acc.1 + ((vs.flatMap (fun vnet => (intRangeFrom 1 vpv).map
          (fun off => vnet * vpv + off))).length : Int),
       acc.2 + (((vs.flatMap (fun vnet => (intRangeFrom 1 vpv).map
          (fun off => vnet * vpv + off))).countP (fun vc => env.vcIdle p vc) : Nat) : Int)) := by
  induction vs with
  | nil => intro acc; simp
  | cons v rest ih =>
    intro acc
    simp only [List.foldl_cons]
    rw [innerCountFold (fun off => env.vcIdle p (v * vpv + off)) (intRangeFrom 1 vpv) acc,
      ih]
    simp only [List.flatMap_cons, List.length_append, List.countP_append,
      List.length_map, List.countP_map]
    rw [Prod.ext_iff]
    have hcomp : ((fun vc => env.vcIdle p vc) ∘ fun off => v * vpv + off) =
        (fun off => env.vcIdle p (v * vpv + off)) := rfl
    constructor
    · simp
      push_cast
      omega
    · simp only [hcomp]
      push_cast
      omega

/-- Claim C10 (amended): checkAdaptiveVCAvailability holds exactly when
some adaptive channel (offset 1 and above inside any traffic class's lane
group) of the queried outport is idle, and getDirectionCongestionScore
equals (total adaptive channels) minus (idle adaptive channels) plus the
perturbation r mod 3, a value among 0, 1, 2 — except that a port with no
adaptive channels at all scores 100 plus the perturbation.  Both helpers
aggregate over every traffic class, so neither depends on the routed
packet's own class. -/
theorem congestion_helpers_spec (env : RouterEnv) (p : Int) (r : Nat) :
    (checkAdaptiveVCAvailability env p = true ↔
      ∃ vc ∈ adaptiveVcIds env p, env.vcIdle p vc = true) ∧
    (0 < totalAdaptiveVcs env p →
      getDirectionCongestionScore env p r =
        totalAdaptiveVcs env p - idleAdaptiveVcs env p + ((r % 3 : Nat) : Int)) ∧
    (totalAdaptiveVcs env p = 0 →
      getDirectionCongestionScore env p r = 100 + ((r % 3 : Nat) : Int)) ∧
    (((r % 3 : Nat) : Int) = 0 ∨ ((r % 3 : Nat) : Int) = 1 ∨ ((r % 3 : Nat) : Int) = 2) := by
  have hcounts := outerCountFold env p (env.vcsPerVnet p)
    (intRangeFrom 0 (env.numVcs.tdiv (env.vcsPerVnet p))) ((0 : Int), (0 : Int))
  refine ⟨?_, ?_, ?_, ?_⟩
  · unfold checkAdaptiveVCAvailability adaptiveVcIds
    simp only [List.any_eq_true, List.mem_flatMap, List.mem_map]
    constructor
    · rintro ⟨vnet, hvnet, off, hoff, hidle⟩
      exact ⟨vnet * env.vcsPerVnet p + off, ⟨vnet, hvnet, off, hoff, rfl⟩, hidle⟩
    · rintro ⟨vc, ⟨vnet, hvnet, off, hoff, hvc⟩, hidle⟩
      exact ⟨vnet, hvnet, off, hoff, by rw [hvc]; exact hidle⟩
  · intro hpos
    unfold totalAdaptiveVcs idleAdaptiveVcs adaptiveVcIds at *
    unfold getDirectionCongestionScore
    dsimp only
    rw [hcounts]
    dsimp only
    split
    · omega
    · omega
  · intro hzero
    unfold totalAdaptiveVcs adaptiveVcIds at *
    unfold getDirectionCongestionScore
    dsimp only
    rw [hcounts]
    dsimp only
    split
    · omega
    · omega
  · omega

/-- Claim C10 counterexample: an outport with a single channel per lane
group (the escape channel only, so no adaptive channels) scores
100 plus the perturbation, not total minus idle plus the perturbation,
refuting the claimed score formula. -/
theorem getDirectionCongestionScore_no_adaptive_vcs :
    getDirectionCongestionScore
        ⟨0, 1, 1, 1, 1, 1, fun _ => 1, 1, fun _ _ => true, fun _ => true,
          RoutingAlgorithm.TORUS3D_ADAPTIVE_⟩ 0 0 = 100 ∧
    totalAdaptiveVcs
        ⟨0, 1, 1, 1, 1, 1, fun _ => 1, 1, fun _ _ => true, fun _ => true,
          RoutingAlgorithm.TORUS3D_ADAPTIVE_⟩ 0 -
      idleAdaptiveVcs
        ⟨0, 1, 1, 1, 1, 1, fun _ => 1, 1, fun _ _ => true, fun _ => true,
          RoutingAlgorithm.TORUS3D_ADAPTIVE_⟩ 0 + ((0 % 3 : Nat) : Int) = 0 ∧
    (100 : Int) ≠ 0 := by
  refine ⟨rfl, by decide, by decide⟩

/-- Witness for the amended claim C10 at an outport with one adaptive
channel per class, which is idle. -/
theorem congestion_helpers_spec_inst :
    (checkAdaptiveVCAvailability
        ⟨0, 1, 1, 1, 1, 1, fun _ => 2, 2, fun _ _ => true, fun _ => true,
          RoutingAlgorithm.TORUS3D_ADAPTIVE_⟩ 0 = true ↔
      ∃ vc ∈ adaptiveVcIds
        ⟨0, 1, 1, 1, 1, 1, fun _ => 2, 2, fun _ _ => true, fun _ => true,
          RoutingAlgorithm.TORUS3D_ADAPTIVE_⟩ 0, true = true) ∧
    (0 < totalAdaptiveVcs
        ⟨0, 1, 1, 1, 1, 1, fun _ => 2, 2, fun _ _ => true, fun _ => true,
          RoutingAlgorithm.TORUS3D_ADAPTIVE_⟩ 0 →
      getDirectionCongestionScore
        ⟨0, 1, 1, 1, 1, 1, fun _ => 2, 2, fun _ _ => true, fun _ => true,
          RoutingAlgorithm.TORUS3D_ADAPTIVE_⟩ 0 5 =
        totalAdaptiveVcs
          ⟨0, 1, 1, 1, 1, 1, fun _ => 2, 2, fun _ _ => true, fun _ => true,
            RoutingAlgorithm.TORUS3D_ADAPTIVE_⟩ 0 -
          idleAdaptiveVcs
            ⟨0, 1, 1, 1, 1, 1, fun _ => 2, 2, fun _ _ => true, fun _ => true,
              RoutingAlgorithm.TORUS3D_ADAPTIVE_⟩ 0 + ((5 % 3 : Nat) : Int)) ∧
    (totalAdaptiveVcs
        ⟨0, 1, 1, 1, 1, 1, fun _ => 2, 2, fun _ _ => true, fun _ => true,
          RoutingAlgorithm.TORUS3D_ADAPTIVE_⟩ 0 = 0 →
      getDirectionCongestionScore
        ⟨0, 1, 1, 1, 1, 1, fun _ => 2, 2, fun _ _ => true, fun _ => true,
          RoutingAlgorithm.TORUS3D_ADAPTIVE_⟩ 0 5 = 100 + ((5 % 3 : Nat) : Int)) ∧
    (((5 % 3 : Nat) : Int) = 0 ∨ ((5 % 3 : Nat) : Int) = 1 ∨ ((5 % 3 : Nat) : Int) = 2) :=
  congestion_helpers_spec
    ⟨0, 1, 1, 1, 1, 1, fun _ => 2, 2, fun _ _ => true, fun _ => true,
      RoutingAlgorithm.TORUS3D_ADAPTIVE_⟩ 0 5

theorem torusCoords_roundtrip (env : RouterEnv) (id : Int) :
    (torusCoords env id).z * (env.dimX * env.dimY) +
      ((torusCoords env id).y * env.dimX + (torusCoords env id).x) = id := by
  unfold torusCoords
  dsimp only
  have h1 := Int.tdiv_add_tmod id (env.dimX * env.dimY)
  have h2 := Int.tdiv_add_tmod (id.tmod (env.dimX * env.dimY)) env.dimX
  linear_combination h1 + h2

theorem torusCoords_bounds (env : RouterEnv) (id : Int)
    (hid : 0 ≤ id) (hlt : id < env.dimX * env.dimY * env.dimZ)
    (hX : 0 < env.dimX) (hY : 0 < env.dimY) (hZ : 0 < env.dimZ) :
    0 ≤ (torusCoords env id).x ∧ (torusCoords env id).x < env.dimX ∧
    0 ≤ (torusCoords env id).y ∧ (torusCoords env id).y < env.dimY ∧
    0 ≤ (torusCoords env id).z ∧ (torusCoords env id).z < env.dimZ := by
  have hXY : 0 < env.dimX * env.dimY := mul_pos hX hY
  have hrem0 : 0 ≤ id.tmod (env.dimX * env.dimY) := Int.tmod_nonneg _ hid
  have hrem1 : id.tmod (env.dimX * env.dimY) < env.dimX * env.dimY :=
    Int.tmod_lt_of_pos id hXY
  unfold torusCoords
  dsimp only
  refine ⟨Int.tmod_nonneg _ hrem0, Int.tmod_lt_of_pos _ hX, ?_, ?_, ?_, ?_⟩
  · rw [Int.tdiv_eq_ediv hrem0 hX.le]
    exact Int.ediv_nonneg hrem0 hX.le
  · rw [Int.tdiv_eq_ediv hrem0 hX.le]
    exact Int.ediv_lt_of_lt_mul hX (by nlinarith)
  · rw [Int.tdiv_eq_ediv hid hXY.le]
    exact Int.ediv_nonneg hid hXY.le
  · rw [Int.tdiv_eq_ediv hid hXY.le]
    exact Int.ediv_lt_of_lt_mul hXY (by nlinarith)

theorem torus_distance_pos {c d n : Int} (hc : 0 ≤ c) (hc' : c < n)
    (hd : 0 ≤ d) (hd' : d < n) (hne : c ≠ d) : 0 < (torus_distance c d n).1 := by
  have hfwd : 0 < (d - c + n).tmod n := by
    rw [Int.tmod_eq_emod (by omega) (by omega)]
    rcases lt_or_gt_of_ne hne with hlt | hgt
    · have heq : (d - c + n) % n = ((d - c) + 1 * n) % n := by ring_nf
      rw [heq, Int.add_mul_emod_self, Int.emod_eq_of_lt (by omega) (by omega)]
      omega
    · rw [Int.emod_eq_of_lt (by omega) (by omega)]
      omega
  have hbwd : 0 < (c - d + n).tmod n := by
    rw [Int.tmod_eq_emod (by omega) (by omega)]
    rcases lt_or_gt_of_ne hne with hlt | hgt
    · rw [Int.emod_eq_of_lt (by omega) (by omega)]
      omega
    · have heq : (c - d + n) % n = ((c - d) + 1 * n) % n := by ring_nf
      rw [heq, Int.add_mul_emod_self, Int.emod_eq_of_lt (by omega) (by omega)]
      omega
  unfold torus_distance
  dsimp only
  split
  · exact hfwd
  · exact hbwd

theorem torus_distance_self (c n : Int) : torus_distance c c n = (0, true) := by
  unfold torus_distance
  simp [Int.tmod_self]

theorem adaptiveStep_skip (env : RouterEnv) (outports : List (PortDirection × Int))
    (pert : Nat → Nat) (a : AdaptState) (d : PortDirection)
    (h : (mapFind outports d).all
      (fun q => !(checkAdaptiveVCAvailability env q)) = true) :
    adaptiveStep env outports pert a d = a := by
  unfold adaptiveStep
  cases hf : mapFind outports d with
  | none => rfl
  | some q =>
    rw [hf] at h
    simp only [Option.all_some, Bool.not_eq_true'] at h
    simp [h]

theorem adaptiveLoop_skip_all (env : RouterEnv) (outports : List (PortDirection × Int))
    (pert : Nat → Nat) :
    ∀ (l : List PortDirection) (a : AdaptState),
      (∀ d ∈ l, (mapFind outports d).all
        (fun q => !(checkAdaptiveVCAvailability env q)) = true) →
      adaptiveLoop env outports pert l a = a := by
  intro l
  induction l with
  | nil => intro a _; rfl
  | cons d rest ih =>
    intro a h
    unfold adaptiveLoop
    rw [adaptiveStep_skip env outports pert a d (h d (List.mem_cons_self _ _))]
    exact ih a (fun x hx => h x (List.mem_cons_of_mem _ hx))

theorem adaptiveLoop_append (env : RouterEnv) (outports : List (PortDirection × Int))
    (pert : Nat → Nat) :
    ∀ (l1 l2 : List PortDirection) (a : AdaptState),
      adaptiveLoop env outports pert (l1 ++ l2) a =
        adaptiveLoop env outports pert l2 (adaptiveLoop env outports pert l1 a) := by
  intro l1
  induction l1 with
  | nil => intro l2 a; rfl
  | cons d rest ih =>
    intro l2 a
    rw [List.cons_append]
    show adaptiveLoop env outports pert (rest ++ l2) (adaptiveStep env outports pert a d) = _
    rw [ih l2 (adaptiveStep env outports pert a d)]
    rfl

/-- Claim C3: for a query not already at its destination (distinct router
ids in range on a torus with positive dimensions), when no minimal-path
candidate direction has an idle adaptive (non-escape) channel on its
registered outport, the adaptive torus router returns exactly the output
port the deterministic torus dimension-order router returns for the same
query. -/
theorem adaptive_escape_matches_dor (env : RouterEnv) (st : RoutingState)
    (pert : Nat → Nat) (route : RouteInfo) (inport : Int) (inportDirn : PortDirection)
    (hX : 0 < env.dimX) (hY : 0 < env.dimY) (hZ : 0 < env.dimZ)
    (hm0 : 0 ≤ env.myId) (hm1 : env.myId < env.dimX * env.dimY * env.dimZ)
    (hd0 : 0 ≤ route.dest_router)
    (hd1 : route.dest_router < env.dimX * env.dimY * env.dimZ)
    (hne : env.myId ≠ route.dest_router)
    (hnone : ∀ d ∈ adaptiveCandidates env route.dest_router,
      (mapFind st.outports d).all
        (fun q => !(checkAdaptiveVCAvailability env q)) = true) :
    ∀ pidx : Int,
      (outportComputeTorus3DAdaptive env st pert route inport inportDirn =
          Except.ok pidx ↔
        outportComputeTorus3D env st route inport inportDirn = Except.ok pidx) := by
  intro pidx
  obtain ⟨bx0, bx1, by0, by1, bz0, bz1⟩ :=
    torusCoords_bounds env env.myId hm0 hm1 hX hY hZ
  obtain ⟨ex0, ex1, ey0, ey1, ez0, ez1⟩ :=
    torusCoords_bounds env route.dest_router hd0 hd1 hX hY hZ
  unfold outportComputeTorus3DAdaptive outportComputeTorus3D
  unfold adaptiveCandidates at hnone ⊢
  dsimp only
  dsimp only at hnone
  set mc := torusCoords env env.myId with hmcd
  set dc := torusCoords env route.dest_router with hdcd
  set xr := torus_distance mc.x dc.x env.dimX with hxrd
  set yr := torus_distance mc.y dc.y env.dimY with hyrd
  set zr := torus_distance mc.z dc.z env.dimZ with hzrd
  have hloop : adaptiveLoop env st.outports pert
      (((if xr.1 > 0 then [if xr.2 then "East" else "West"] else []) ++
        (if yr.1 > 0 then [if yr.2 then "North" else "South"] else [])) ++
          (if zr.1 > 0 then [if zr.2 then "Up" else "Down"] else []))
      ⟨INT_MAX, "Unknown", false, 0⟩ = ⟨INT_MAX, "Unknown", false, 0⟩ :=
    adaptiveLoop_skip_all env st.outports pert _ _ hnone
  by_cases hx : mc.x = dc.x
  · have hxz : xr = (0, true) := by rw [hxrd, hx]; exact torus_distance_self _ _
    by_cases hy : mc.y = dc.y
    · have hyz : yr = (0, true) := by rw [hyrd, hy]; exact torus_distance_self _ _
      by_cases hz : mc.z = dc.z
      · exfalso
        have h1 := torusCoords_roundtrip env env.myId
        have h2 := torusCoords_roundtrip env route.dest_router
        rw [← hmcd] at h1
        rw [← hdcd] at h2
        rw [hx, hy, hz] at h1
        exact hne (h1.symm.trans h2)
      · have hz1 : 0 < zr.1 := by
          rw [hzrd]; exact torus_distance_pos bz0 bz1 ez0 ez1 hz
        rw [hloop]
        rw [hxz, hyz]
        rw [if_neg (show ¬ (((0 : Int), true).1 > 0) by simp),
          if_neg (show ¬ (((0 : Int), true).1 > 0) by simp), if_pos hz1]
        rw [if_neg (by simp [List.isEmpty])]
        dsimp only
        rw [if_neg (show ¬ (((0 : Int), true).1 > 0) by simp),
          if_neg (show ¬ (((0 : Int), true).1 > 0) by simp), if_pos hz1]
        cases hf : mapFind st.outports (if zr.2 then "Up" else "Down") with
        | none => simp [hf, hz1]
        | some idx => simp [hf, hz1]
    · have hy1 : 0 < yr.1 := by
        rw [hyrd]; exact torus_distance_pos by0 by1 ey0 ey1 hy
      rw [hloop]
      rw [hxz]
      rw [if_neg (show ¬ (((0 : Int), true).1 > 0) by simp), if_pos hy1]
      rw [if_neg (by simp [List.isEmpty])]
      dsimp only
      rw [if_neg (show ¬ (((0 : Int), true).1 > 0) by simp), if_pos hy1]
      cases hf : mapFind st.outports (if yr.2 then "North" else "South") with
      | none => simp [hf, hy1]
      | some idx => simp [hf, hy1]
  · have hx1 : 0 < xr.1 := by
      rw [hxrd]; exact torus_distance_pos bx0 bx1 ex0 ex1 hx
    rw [hloop]
    rw [if_pos hx1]
    rw [if_neg (by simp [List.isEmpty])]
    dsimp only
    rw [if_pos hx1]
    cases hf : mapFind st.outports (if xr.2 then "East" else "West") with
    | none => simp [hf, hx1]
    | some idx => simp [hf, hx1]

/-- Witness for claim C3: a 2x1x1 torus whose single outport has only the
escape channel; the adaptive router and the deterministic router both
return port 0 (East). -/
theorem adaptive_escape_matches_dor_inst :
    outportComputeTorus3DAdaptive
        ⟨0, 1, 1, 2, 1, 1, fun _ => 1, 1, fun _ _ => false, fun _ => true,
          RoutingAlgorithm.TORUS3D_ADAPTIVE_⟩
        ⟨[], [], [("East", 0)]⟩ (fun _ => 0) ⟨0, [], 1⟩ 0 "Local" = Except.ok 0 ↔
      outportComputeTorus3D
        ⟨0, 1, 1, 2, 1, 1, fun _ => 1, 1, fun _ _ => false, fun _ => true,
          RoutingAlgorithm.TORUS3D_ADAPTIVE_⟩
        ⟨[], [], [("East", 0)]⟩ ⟨0, [], 1⟩ 0 "Local" = Except.ok 0 :=
  adaptive_escape_matches_dor
    ⟨0, 1, 1, 2, 1, 1, fun _ => 1, 1, fun _ _ => false, fun _ => true,
      RoutingAlgorithm.TORUS3D_ADAPTIVE_⟩
    ⟨[], [], [("East", 0)]⟩ (fun _ => 0) ⟨0, [], 1⟩ 0 "Local"
    (by decide) (by decide) (by decide) (by decide) (by decide) (by decide)
    (by decide) (by decide) (by decide) 0

theorem mem_dir_block {c : Prop} [Decidable c] {b : Bool} {s1 s2 d : PortDirection}
    (h : d ∈ (if c then [if b then s1 else s2] else [])) : d = s1 ∨ d = s2 := by
  split at h
  · rw [List.mem_singleton] at h
    cases b
    · simp at h; exact Or.inr h
    · simp at h; exact Or.inl h
  · simp at h

theorem adaptiveCandidates_nodup (env : RouterEnv) (destId : Int) :
    (adaptiveCandidates env destId).Nodup := by
  unfold adaptiveCandidates
  dsimp only
  have hx : ∀ d ∈ (if (torus_distance (torusCoords env env.myId).x
      (torusCoords env destId).x env.dimX).1 > 0 then
        [if (torus_distance (torusCoords env env.myId).x
          (torusCoords env destId).x env.dimX).2 then "East" else "West"] else []),
      d = "East" ∨ d = "West" := fun d hd => mem_dir_block hd
  have hy : ∀ d ∈ (if (torus_distance (torusCoords env env.myId).y
      (torusCoords env destId).y env.dimY).1 > 0 then
        [if (torus_distance (torusCoords env env.myId).y
          (torusCoords env destId).y env.dimY).2 then "North" else "South"] else []),
      d = "North" ∨ d = "South" := fun d hd => mem_dir_block hd
  have hz : ∀ d ∈ (if (torus_distance (torusCoords env env.myId).z
      (torusCoords env destId).z env.dimZ).1 > 0 then
        [if (torus_distance (torusCoords env env.myId).z
          (torusCoords env destId).z env.dimZ).2 then "Up" else "Down"] else []),
      d = "Up" ∨ d = "Down" := fun d hd => mem_dir_block hd
  refine List.Nodup.append (List.Nodup.append ?_ ?_ ?_) ?_ ?_
  · split <;> simp
  · split <;> simp
  · rw [List.disjoint_left]
    intro a ha hb
    rcases hx a ha with h1 | h1 <;> rcases hy a hb with h2 | h2 <;>
      exact absurd (h1.symm.trans h2) (by decide)
  · split <;> simp
  · rw [List.disjoint_left]
    intro a ha hb
    rcases List.mem_append.mp ha with ha1 | ha1
    · rcases hx a ha1 with h1 | h1 <;> rcases hz a hb with h2 | h2 <;>
        exact absurd (h1.symm.trans h2) (by decide)
    · rcases hy a ha1 with h1 | h1 <;> rcases hz a hb with h2 | h2 <;>
        exact absurd (h1.symm.trans h2) (by decide)

theorem length_flatMap_const {A B : Type} (l : List A) (f : A → List B) (k : Nat)
    (h : ∀ a ∈ l, (f a).length = k) : (l.flatMap f).length = l.length * k := by
  induction l with
  | nil => simp
  | cons a rest ih =>
    simp only [List.flatMap_cons, List.length_append, List.length_cons,
      h a (List.mem_cons_self _ _), ih (fun x hx => h x (List.mem_cons_of_mem _ hx))]
    ring

theorem getDirectionCongestionScore_lt_INT_MAX (env : RouterEnv) (p : Int) (r : Nat)
    (h0 : 0 ≤ env.numVcs) (h1 : env.numVcs ≤ 2147483544) :
    getDirectionCongestionScore env p r < INT_MAX := by
  unfold getDirectionCongestionScore
  dsimp only
  rw [outerCountFold env p (env.vcsPerVnet p)
    (intRangeFrom 0 (env.numVcs.tdiv (env.vcsPerVnet p))) ((0 : Int), (0 : Int))]
  dsimp only
  have hinner : ∀ a : Int, ((intRangeFrom 1 (env.vcsPerVnet p)).map
      (fun off => a * env.vcsPerVnet p + off)).length = ((env.vcsPerVnet p) - 1).toNat := by
    intro a
    rw [List.length_map]
    unfold intRangeFrom
    rw [List.length_map, List.length_range]
  have hlen : (((intRangeFrom 0 (env.numVcs.tdiv (env.vcsPerVnet p))).flatMap
      (fun vnet => (intRangeFrom 1 (env.vcsPerVnet p)).map
        (fun off => vnet * env.vcsPerVnet p + off))).length : Nat) =
      (env.numVcs.tdiv (env.vcsPerVnet p)).toNat * ((env.vcsPerVnet p) - 1).toNat := by
    rw [length_flatMap_const _ _ ((env.vcsPerVnet p) - 1).toNat (fun a _ => hinner a)]
    unfold intRangeFrom
    rw [List.length_map, List.length_range]
    congr 1
    omega
  rw [hlen]
  have hC1 : ((r % 3 : Nat) : Int) < 3 := by
    have : r % 3 < 3 := Nat.mod_lt _ (by omega)
    omega
  have hI0 : (0 : Int) ≤ ((((intRangeFrom 0 (env.numVcs.tdiv (env.vcsPerVnet p))).flatMap
      (fun vnet => (intRangeFrom 1 (env.vcsPerVnet p)).map
        (fun off => vnet * env.vcsPerVnet p + off))).countP
          (fun vc => env.vcIdle p vc) : Nat) : Int) := by positivity
  have hT : (((env.numVcs.tdiv (env.vcsPerVnet p)).toNat *
      ((env.vcsPerVnet p) - 1).toNat : Nat) : Int) ≤ env.numVcs := by
    by_cases hv : env.vcsPerVnet p ≤ 1
    · have hz : ((env.vcsPerVnet p) - 1).toNat = 0 := by omega
      rw [hz]
      simpa using h0
    · push_neg at hv
      have hvpos : (0 : Int) < env.vcsPerVnet p := by omega
      have hn0 : 0 ≤ env.numVcs.tdiv (env.vcsPerVnet p) :=
        Int.tdiv_nonneg h0 hvpos.le
      have hmul : env.numVcs.tdiv (env.vcsPerVnet p) * env.vcsPerVnet p ≤ env.numVcs := by
        rw [Int.tdiv_eq_ediv h0 hvpos.le]
        exact Int.ediv_mul_le env.numVcs (by omega)
      push_cast
      rw [Int.toNat_of_nonneg hn0,
        Int.toNat_of_nonneg (by omega : (0 : Int) ≤ env.vcsPerVnet p - 1)]
      nlinarith
  unfold INT_MAX
  split
  · linarith
  · linarith

/-- Claim C7: when exactly one minimal-path candidate direction is
registered with an outport that has an idle adaptive channel and every
other candidate has none, outportComputeTorus3DAdaptive selects that
candidate's outport for every perturbation stream: candidates without an
idle adaptive channel never enter the congestion-score comparison.  The
bound on the total channel count keeps the single computed score below
the INT_MAX initialiser. -/
theorem adaptive_single_available_selected (env : RouterEnv) (st : RoutingState)
    (pert : Nat → Nat) (route : RouteInfo) (inport : Int) (inportDirn : PortDirection)
    (c : PortDirection) (p : Int)
    (hmem : c ∈ adaptiveCandidates env route.dest_router)
    (hfind : mapFind st.outports c = some p)
    (hcheck : checkAdaptiveVCAvailability env p = true)
    (hothers : ∀ d ∈ adaptiveCandidates env route.dest_router, d ≠ c →
      (mapFind st.outports d).all (fun q => !(checkAdaptiveVCAvailability env q)) = true)
    (h0 : 0 ≤ env.numVcs) (h1 : env.numVcs ≤ 2147483544) :
    outportComputeTorus3DAdaptive env st pert route inport inportDirn = Except.ok p := by
  obtain ⟨sl, tl, hst⟩ := List.append_of_mem hmem
  have hnd := adaptiveCandidates_nodup env route.dest_router
  rw [hst] at hnd
  obtain ⟨hnds, hndct, hdisj⟩ := List.nodup_append.mp hnd
  have hcns : c ∉ sl := fun hc => hdisj hc (List.mem_cons_self _ _)
  have hcnt : c ∉ tl := (List.nodup_cons.mp hndct).1
  have hskip_s : ∀ d ∈ sl,
      (mapFind st.outports d).all (fun q => !(checkAdaptiveVCAvailability env q)) = true := by
    intro d hd
    refine hothers d ?_ ?_
    · rw [hst]; exact List.mem_append_left _ hd
    · intro hdc; rw [hdc] at hd; exact hcns hd
  have hskip_t : ∀ d ∈ tl,
      (mapFind st.outports d).all (fun q => !(checkAdaptiveVCAvailability env q)) = true := by
    intro d hd
    refine hothers d ?_ ?_
    · rw [hst]; exact List.mem_append_right _ (List.mem_cons_of_mem _ hd)
    · intro hdc; rw [hdc] at hd; exact hcnt hd
  have hstep : adaptiveStep env st.outports pert ⟨INT_MAX, "Unknown", false, 0⟩ c =
      ⟨getDirectionCongestionScore env p (pert 0), c, true, 1⟩ := by
    unfold adaptiveStep
    rw [hfind]
    dsimp only
    rw [if_pos hcheck,
      if_pos (getDirectionCongestionScore_lt_INT_MAX env p (pert 0) h0 h1)]
  have hloop : adaptiveLoop env st.outports pert (sl ++ c :: tl)
      ⟨INT_MAX, "Unknown", false, 0⟩ =
      ⟨getDirectionCongestionScore env p (pert 0), c, true, 1⟩ := by
    rw [adaptiveLoop_append env st.outports pert sl (c :: tl) _,
      adaptiveLoop_skip_all env st.outports pert sl _ hskip_s]
    show adaptiveLoop env st.outports pert tl
      (adaptiveStep env st.outports pert ⟨INT_MAX, "Unknown", false, 0⟩ c) = _
    rw [hstep]
    exact adaptiveLoop_skip_all env st.outports pert tl _ hskip_t
  unfold outportComputeTorus3DAdaptive
  dsimp only
  rw [hst]
  rw [if_neg (by simp)]
  rw [hloop]
  dsimp only
  rw [if_pos rfl]
  rw [hfind]

/-- Witness for claim C7: a 2x1x1 torus with one candidate (East) whose
outport has an idle adaptive channel; East's port is selected. -/
theorem adaptive_single_available_selected_inst :
    outportComputeTorus3DAdaptive
        ⟨0, 1, 1, 2, 1, 1, fun _ => 2, 2, fun _ _ => true, fun _ => true,
          RoutingAlgorithm.TORUS3D_ADAPTIVE_⟩
        ⟨[], [], [("East", 0)]⟩ (fun _ => 0) ⟨0, [], 1⟩ 0 "Local" = Except.ok 0 :=
  adaptive_single_available_selected
    ⟨0, 1, 1, 2, 1, 1, fun _ => 2, 2, fun _ _ => true, fun _ => true,
      RoutingAlgorithm.TORUS3D_ADAPTIVE_⟩
    ⟨[], [], [("East", 0)]⟩ (fun _ => 0) ⟨0, [], 1⟩ 0 "Local" "East" 0
    (by decide) (by decide) (by decide) (by decide) (by decide) (by decide)

end Garnet
